import Mathlib

/-!
Verification development for the trade-execution and risk-control core of
the Eclipse Market application (Rust, `src-tauri`).

The data model (`OrderType`, `OrderSide`, `OrderStatus`, `Order`,
`CreateOrderRequest`) is embedded from `src/src-tauri/src/trading/types.rs`.
The Order Store operations, Price Trigger Evaluator and Safety Engine are
not present in the available sources (only their types and callers are), so
they are modelled from the specification, as marked on each definition.
Prices and amounts (`f64` in the source types) are modelled as exact
rationals; timestamps as natural numbers (seconds).
-/

namespace EclipseMarket

/-- `OrderType` from `trading/types.rs` (variants Market, Limit, StopLoss,
TakeProfit, TrailingStop). -/
inductive OrderType where
  | Market
  | Limit
  | StopLoss
  | TakeProfit
  | TrailingStop
deriving DecidableEq, Repr

/-- `OrderSide` from `trading/types.rs`. -/
inductive OrderSide where
  | Buy
  | Sell
deriving DecidableEq, Repr

/-- `OrderStatus` from `trading/types.rs` (Pending, PartiallyFilled, Filled,
Cancelled, Expired, Failed). -/
inductive OrderStatus where
  | Pending
  | PartiallyFilled
  | Filled
  | Cancelled
  | Expired
  | Failed
deriving DecidableEq, Repr

/-- The serialized text form of `OrderType` used for JSON (serde) and the
sqlx TEXT column: both derives carry `rename_all = "lowercase"`, which
lowercases the variant name with no separator inserted. -/
def OrderType.serde_name : OrderType → String
  | .Market => "market"
  | .Limit => "limit"
  | .StopLoss => "stoploss"
  | .TakeProfit => "takeprofit"
  | .TrailingStop => "trailingstop"

/-- The `Display` implementation for `OrderType` in `trading/types.rs`
(renders snake_case). -/
def OrderType.display : OrderType → String
  | .Market => "market"
  | .Limit => "limit"
  | .StopLoss => "stop_loss"
  | .TakeProfit => "take_profit"
  | .TrailingStop => "trailing_stop"

/-- Deserialization of `OrderType`: serde accepts exactly the renamed
(lowercased) variant names. -/
def OrderType.from_serde (s : String) : Option OrderType :=
  if s = "market" then some .Market
  else if s = "limit" then some .Limit
  else if s = "stoploss" then some .StopLoss
  else if s = "takeprofit" then some .TakeProfit
  else if s = "trailingstop" then some .TrailingStop
  else none

/-- The serialized text form of `OrderStatus` (serde and sqlx, both
`rename_all = "lowercase"`). -/
def OrderStatus.serde_name : OrderStatus → String
  | .Pending => "pending"
  | .PartiallyFilled => "partiallyfilled"
  | .Filled => "filled"
  | .Cancelled => "cancelled"
  | .Expired => "expired"
  | .Failed => "failed"

/-- The `Display` implementation for `OrderStatus` in `trading/types.rs`. -/
def OrderStatus.display : OrderStatus → String
  | .Pending => "pending"
  | .PartiallyFilled => "partially_filled"
  | .Filled => "filled"
  | .Cancelled => "cancelled"
  | .Expired => "expired"
  | .Failed => "failed"

/-- Deserialization of `OrderStatus`: serde accepts exactly the renamed
(lowercased) variant names. -/
def OrderStatus.from_serde (s : String) : Option OrderStatus :=
  if s = "pending" then some .Pending
  else if s = "partiallyfilled" then some .PartiallyFilled
  else if s = "filled" then some .Filled
  else if s = "cancelled" then some .Cancelled
  else if s = "expired" then some .Expired
  else if s = "failed" then some .Failed
  else none

/-- A terminal status: Filled, Cancelled, Expired or Failed. -/
def OrderStatus.isTerminal : OrderStatus → Bool
  | .Filled => true
  | .Cancelled => true
  | .Expired => true
  | .Failed => true
  | _ => false

/-- `Order` from `trading/types.rs`. `f64` prices and amounts are modelled
as `ℚ`, `DateTime<Utc>` timestamps as `ℕ` seconds. -/
structure Order where
  id : String
  order_type : OrderType
  side : OrderSide
  status : OrderStatus
  input_mint : String
  output_mint : String
  input_symbol : String
  output_symbol : String
  amount : ℚ
  filled_amount : ℚ
  limit_price : Option ℚ
  stop_price : Option ℚ
  trailing_percent : Option ℚ
  highest_price : Option ℚ
  lowest_price : Option ℚ
  linked_order_id : Option String
  slippage_bps : Int
  priority_fee_micro_lamports : Int
  wallet_address : String
  created_at : ℕ
  updated_at : ℕ
  triggered_at : Option ℕ
  tx_signature : Option String
  error_message : Option String
deriving DecidableEq, Repr

/-- `CreateOrderRequest` from `trading/types.rs`. -/
structure CreateOrderRequest where
  order_type : OrderType
  side : OrderSide
  input_mint : String
  output_mint : String
  input_symbol : String
  output_symbol : String
  amount : ℚ
  limit_price : Option ℚ
  stop_price : Option ℚ
  trailing_percent : Option ℚ
  linked_order_id : Option String
  slippage_bps : Int
  priority_fee_micro_lamports : Int
  wallet_address : String
deriving DecidableEq, Repr

/-- The error taxonomy of the spec (section 7) restricted to the Order
Store: `InvalidRequest`, `NotFound`, `InvalidTransition`, `OverFill`. -/
inductive OrderError where
  | InvalidRequest
  | NotFound
  | InvalidTransition
  | OverFill
deriving DecidableEq, Repr

/-- A trailing percent strictly between 0 and 100 is present. -/
def trailingOk : Option ℚ → Bool
  | some p => decide (0 < p) && decide (p < 100)
  | none => false

/-- Modelled from the spec: the Order Store implementation is absent from
the sources. `create(request)` validates request shape (non-empty pair
identifiers, amount > 0, Limit requires a limit price, StopLoss/TakeProfit
require a trigger price, TrailingStop requires a trailing percent strictly
between 0 and 100), assigns id and timestamps, status = Pending; fails with
`InvalidRequest` when validation fails. -/
def create (req : CreateOrderRequest) (id : String) (now : ℕ) :
    Except OrderError Order :=
  if req.input_mint = "" then .error .InvalidRequest
  else if req.output_mint = "" then .error .InvalidRequest
  else if req.amount ≤ 0 then .error .InvalidRequest
  else if req.order_type = .Limit ∧ req.limit_price = none then
    .error .InvalidRequest
  else if (req.order_type = .StopLoss ∨ req.order_type = .TakeProfit) ∧
      req.stop_price = none then
    .error .InvalidRequest
  else if req.order_type = .TrailingStop ∧
      trailingOk req.trailing_percent = false then
    .error .InvalidRequest
  else
    .ok {
      id := id
      order_type := req.order_type
      side := req.side
      status := .Pending
      input_mint := req.input_mint
      output_mint := req.output_mint
      input_symbol := req.input_symbol
      output_symbol := req.output_symbol
      amount := req.amount
      filled_amount := 0
      limit_price := req.limit_price
      stop_price := req.stop_price
      trailing_percent := req.trailing_percent
      highest_price := none
      lowest_price := none
      linked_order_id := req.linked_order_id
      slippage_bps := req.slippage_bps
      priority_fee_micro_lamports := req.priority_fee_micro_lamports
      wallet_address := req.wallet_address
      created_at := now
      updated_at := now
      triggered_at := none
      tx_signature := none
      error_message := none }

/-- Modelled from the spec: `apply_fill(id, filled_delta, price, signature)`
increases `filled_amount` by `filled_delta` (must be > 0 and not overshoot
the requested amount — overshoot fails with `OverFill` and the order is left
unchanged), recomputes status (PartiallyFilled or Filled), records the
signature; fails with `InvalidTransition` if the order is already
terminal. -/
def apply_fill (o : Order) (delta price : ℚ) (sig : String) (now : ℕ) :
    Except OrderError Order :=
  if o.status.isTerminal then .error .InvalidTransition
  else if delta ≤ 0 then .error .InvalidRequest
  else if o.amount < newFilled then .error .OverFill
  else
    .ok { o with
      filled_amount := newFilled
      status := if newFilled = o.amount then .Filled else .PartiallyFilled
      tx_signature := some sig
      updated_at := now }
where newFilled : ℚ := o.filled_amount + delta

/-- Modelled from the spec: `cancel(id)` fails with `InvalidTransition`
unless the current status is Pending or PartiallyFilled; otherwise moves the
order to Cancelled. -/
def cancel (o : Order) (now : ℕ) : Except OrderError Order :=
  if o.status = .Pending ∨ o.status = .PartiallyFilled then
    .ok { o with status := .Cancelled, updated_at := now }
  else .error .InvalidTransition

/-- Modelled from the spec: `mark_expired(id)` fails with
`InvalidTransition` unless the current status is Pending or PartiallyFilled;
otherwise moves the order to Expired. -/
def mark_expired (o : Order) (now : ℕ) : Except OrderError Order :=
  if o.status = .Pending ∨ o.status = .PartiallyFilled then
    .ok { o with status := .Expired, updated_at := now }
  else .error .InvalidTransition

/-- Modelled from the spec: `mark_failed(id, reason)` fails with
`InvalidTransition` unless the current status is Pending or PartiallyFilled;
otherwise moves the order to Failed and records the reason. -/
def mark_failed (o : Order) (reason : String) (now : ℕ) :
    Except OrderError Order :=
  if o.status = .Pending ∨ o.status = .PartiallyFilled then
    .ok { o with status := .Failed, error_message := some reason,
                 updated_at := now }
  else .error .InvalidTransition

/-- Modelled from the spec: `update_trailing_watermark(id, price)` applies
to TrailingStop orders only; it updates the high (Sell side) / low (Buy
side) watermark monotonically (never regresses) and recomputes the
effective stop price as watermark × (1 − trailing%/100) for a sell-side
trailing stop, watermark × (1 + trailing%/100) for a buy-side one. -/
def update_trailing_watermark (o : Order) (price : ℚ) :
    Except OrderError Order :=
  if o.order_type = .TrailingStop then
    match o.trailing_percent with
    | none => .error .InvalidRequest
    | some tp =>
      match o.side with
      | .Sell =>
        let w := max (o.highest_price.getD price) price
        .ok { o with highest_price := some w,
                     stop_price := some (w * (1 - tp / 100)) }
      | .Buy =>
        let w := min (o.lowest_price.getD price) price
        .ok { o with lowest_price := some w,
                     stop_price := some (w * (1 + tp / 100)) }
  else .error .InvalidRequest

/-- An Order Store operation on a single stored order (the per-order view
of the store API; `create` is the base case and is treated separately). -/
inductive Op where
  | fill (delta price : ℚ) (sig : String) (now : ℕ)
  | cancelOp (now : ℕ)
  | expireOp (now : ℕ)
  | failOp (reason : String) (now : ℕ)
  | trailOp (price : ℚ)
deriving DecidableEq, Repr

/-- Apply one operation to a stored order: a failing operation returns the
store to the caller unchanged (the Store never mutates on error). -/
def step (o : Order) (op : Op) : Order :=
  match op with
  | .fill delta price sig now =>
    match apply_fill o delta price sig now with
    | .ok o' => o'
    | .error _ => o
  | .cancelOp now =>
    match cancel o now with
    | .ok o' => o'
    | .error _ => o
  | .expireOp now =>
    match mark_expired o now with
    | .ok o' => o'
    | .error _ => o
  | .failOp reason now =>
    match mark_failed o reason now with
    | .ok o' => o'
    | .error _ => o
  | .trailOp price =>
    match update_trailing_watermark o price with
    | .ok o' => o'
    | .error _ => o

/-- Apply a sequence of Order Store operations. -/
def applyOps (o : Order) (ops : List Op) : Order :=
  ops.foldl step o

/-- The Order invariant of the spec (section 3): the filled amount never
exceeds the requested amount, and the status is Filled exactly when the
order is completely filled. -/
def Inv (o : Order) : Prop :=
  o.filled_amount ≤ o.amount ∧
    (o.status = .Filled ↔ o.filled_amount = o.amount)

instance (o : Order) : Decidable (Inv o) := by
  unfold Inv; infer_instance

/-- A price tick: the pair (input/output mint), the price, the timestamp. -/
structure Tick where
  input_mint : String
  output_mint : String
  price : ℚ
  ts : ℕ
deriving DecidableEq, Repr

/-- The order is for the tick's pair. -/
def pairMatch (o : Order) (t : Tick) : Bool :=
  o.input_mint = t.input_mint && o.output_mint = t.output_mint

/-- The order's status is open (Pending or PartiallyFilled). -/
def openStatus (o : Order) : Bool :=
  o.status = .Pending || o.status = .PartiallyFilled

/-- Modelled from the spec: the type-specific trigger comparator of the
Price Trigger Evaluator (section 4.2). Limit Buy fires when tick price ≤
limit price, Limit Sell when tick price ≥ limit price; StopLoss Sell when
tick price ≤ stop price, StopLoss Buy when tick price ≥ stop price;
TakeProfit Sell when tick price ≥ target price, TakeProfit Buy when tick
price ≤ target price; TrailingStop uses the StopLoss comparator for the
order's side against the recomputed effective stop price; Market orders are
never queued here. -/
def fires (o : Order) (p : ℚ) : Bool :=
  match o.order_type, o.side with
  | .Market, _ => false
  | .Limit, .Buy =>
    match o.limit_price with
    | some lp => p ≤ lp
    | none => false
  | .Limit, .Sell =>
    match o.limit_price with
    | some lp => lp ≤ p
    | none => false
  | .StopLoss, .Sell =>
    match o.stop_price with
    | some sp => p ≤ sp
    | none => false
  | .StopLoss, .Buy =>
    match o.stop_price with
    | some sp => sp ≤ p
    | none => false
  | .TakeProfit, .Sell =>
    match o.stop_price with
    | some sp => sp ≤ p
    | none => false
  | .TakeProfit, .Buy =>
    match o.stop_price with
    | some sp => p ≤ sp
    | none => false
  | .TrailingStop, .Sell =>
    match o.stop_price with
    | some sp => p ≤ sp
    | none => false
  | .TrailingStop, .Buy =>
    match o.stop_price with
    | some sp => sp ≤ p
    | none => false

/-- Modelled from the spec: on every tick, a TrailingStop order for the
tick's pair has its watermark updated (section 4.2) before eligibility is
checked; other orders are untouched. -/
def tickUpdate (t : Tick) (o : Order) : Order :=
  if pairMatch o t && o.order_type = .TrailingStop then
    match update_trailing_watermark o t.price with
    | .ok o' => o'
    | .error _ => o
  else o

/-- Eligibility of an order on a tick (after the watermark update): open
conditional order for the tick's pair, not yet triggered, and the
type-specific comparator fires. -/
def eligible (t : Tick) (o : Order) : Bool :=
  openStatus o && pairMatch o t && o.triggered_at.isNone && fires o t.price

/-- Ascending creation-time order. -/
def createdLE (a b : Order) : Prop := a.created_at ≤ b.created_at

instance : DecidableRel createdLE := fun a b => Nat.decLe _ _

instance : IsTotal Order createdLE := ⟨fun a b => Nat.le_total _ _⟩

instance : IsTrans Order createdLE := ⟨fun _ _ _ h h' => Nat.le_trans h h'⟩

/-- Set the one-shot triggered marker on an order that fired this tick. -/
def markTriggered (t : Tick) (o : Order) : Order :=
  if eligible t o then { o with triggered_at := some t.ts } else o

/-- Modelled from the spec: one evaluation round of the Price Trigger
Evaluator (section 4.2). Watermarks update first; the eligible orders are
emitted in ascending creation-time order; each eligible order's one-shot
triggered marker is set atomically with the decision. Returns the updated
order set and the fired orders. -/
def evalTick (orders : List Order) (t : Tick) : List Order × List Order :=
  let updated := orders.map (tickUpdate t)
  ((updated.map (markTriggered t)),
   (updated.filter (eligible t)).insertionSort createdLE)

/-- The output of an evaluation round as the spec states it: a sequence of
(order id, trigger price, trigger timestamp) triples, each of which is one
Execution Coordinator invocation. -/
def evalTickOutput (orders : List Order) (t : Tick) : List (String × ℚ × ℕ) :=
  (evalTick orders t).2.map fun o => (o.id, t.price, t.ts)

/-- Feed a sequence of ticks through the Evaluator, accumulating every
fired (order id, trigger price, trigger timestamp) triple. -/
def processTicks (orders : List Order) (ts : List Tick) :
    List Order × List (String × ℚ × ℕ) :=
  ts.foldl
    (fun acc t => ((evalTick acc.1 t).1, acc.2 ++ evalTickOutput acc.1 t))
    (orders, [])

/-- Modelled from the spec: a named threshold rule of the Safety Policy
(e.g. max slippage, min liquidity); the check itself is abstract. -/
structure ThresholdRule where
  name : String
  passes : ℚ → Bool

/-- Modelled from the spec: a proposed trade as seen by the Safety Engine:
the owning wallet and the trade's value. -/
structure ProposedTrade where
  wallet_address : String
  value : ℚ
deriving DecidableEq, Repr

/-- Modelled from the spec: the Safety Policy (section 3): per-trade value
ceiling, daily cumulative value ceiling, cooldown duration between trades,
kill-switch flag, and named threshold rules. -/
structure SafetyPolicy where
  max_trade_value : ℚ
  daily_limit : ℚ
  cooldown_seconds : ℕ
  kill_switch : Bool
  rules : List ThresholdRule

/-- The deny reasons of the Safety Engine (section 4.3). -/
inductive Reason where
  | KillSwitchActive
  | CooldownActive (remaining_seconds : ℕ)
  | ExceedsTradeLimit
  | ExceedsDailyLimit
  | ThresholdViolation (rule_name : String)
deriving DecidableEq, Repr

/-- The Safety Engine's decision: Approve, or Deny with reasons. -/
inductive Decision where
  | Approve
  | Deny (reasons : List Reason)
deriving DecidableEq, Repr

/-- Modelled from the spec: the Safety Engine's state: the active policy
and the record of approved trades (wallet, value, approval time), most
recent first. -/
structure SafetyEngine where
  policy : SafetyPolicy
  approved_trades : List (String × ℚ × ℕ)

/-- The time of the wallet's most recent approved trade, if any. -/
def lastTradeTime (e : SafetyEngine) (wallet : String) : Option ℕ :=
  (e.approved_trades.find? fun r => r.1 == wallet).map fun r => r.2.2

/-- The wallet's approved-trade value sum within the rolling 24h window
ending at `now`. -/
def dailySum (e : SafetyEngine) (wallet : String) (now : ℕ) : ℚ :=
  ((e.approved_trades.filter fun r =>
      r.1 == wallet && decide (now < r.2.2 + 86400)).map fun r => r.2.1).sum

/-- Modelled from the spec: `evaluate(proposed_trade)` (section 4.3). The
kill switch denies immediately with `KillSwitchActive`, short-circuiting
every other check; otherwise the independent checks (cooldown, per-trade
ceiling, daily cumulative ceiling, threshold rules) each contribute a
reason, all must pass for Approve, and an Approve records the trade value
against the counters atomically with the decision. -/
def evaluate (e : SafetyEngine) (t : ProposedTrade) (now : ℕ) :
    Decision × SafetyEngine :=
  if e.policy.kill_switch then (.Deny [.KillSwitchActive], e)
  else
    let cooldownReasons : List Reason :=
      match lastTradeTime e t.wallet_address with
      | some last =>
        if now < last + e.policy.cooldown_seconds then
          [.CooldownActive (last + e.policy.cooldown_seconds - now)]
        else []
      | none => []
    let tradeReasons : List Reason :=
      if e.policy.max_trade_value < t.value then [.ExceedsTradeLimit] else []
    let dailyReasons : List Reason :=
      if e.policy.daily_limit < dailySum e t.wallet_address now + t.value then
        [.ExceedsDailyLimit]
      else []
    let ruleReasons : List Reason :=
      (e.policy.rules.filter fun r => !(r.passes t.value)).map fun r =>
        .ThresholdViolation r.name
    let reasons := cooldownReasons ++ tradeReasons ++ dailyReasons ++ ruleReasons
    if reasons.isEmpty then
      (.Approve,
       { e with approved_trades :=
           (t.wallet_address, t.value, now) :: e.approved_trades })
    else (.Deny reasons, e)

/-! Concrete fixtures used by the scenario proofs and witnesses. -/

/-- The Limit Sell order of the spec scenario: trigger price 100, amount 10. -/
def demoOrder : Order :=
  { id := "ord-1", order_type := .Limit, side := .Sell, status := .Pending,
    input_mint := "SOL", output_mint := "USDC", input_symbol := "SOL",
    output_symbol := "USDC", amount := 10, filled_amount := 0,
    limit_price := some 100, stop_price := none, trailing_percent := none,
    highest_price := none, lowest_price := none, linked_order_id := none,
    slippage_bps := 50, priority_fee_micro_lamports := 0,
    wallet_address := "W1", created_at := 1, updated_at := 1,
    triggered_at := none, tx_signature := none, error_message := none }

/-- The TrailingStop Sell order of the spec scenario: trailing 5%, starting
watermark 200 (effective stop 190). -/
def trailOrder : Order :=
  { demoOrder with
      id := "ord-2"
      order_type := .TrailingStop
      limit_price := none
      trailing_percent := some 5
      highest_price := some 200
      stop_price := some 190 }

/-- A completely filled (terminal) order. -/
def filledOrder : Order :=
  { demoOrder with status := .Filled, filled_amount := 10 }

/-- A tick for the SOL/USDC pair. -/
def tick (p : ℚ) (ts : ℕ) : Tick :=
  { input_mint := "SOL", output_mint := "USDC", price := p, ts := ts }

/-- A permissive demo policy: per-trade ceiling 1000, daily ceiling 1000,
cooldown 60 s, kill switch off, no threshold rules. -/
def demoPolicy : SafetyPolicy :=
  { max_trade_value := 1000, daily_limit := 1000, cooldown_seconds := 60,
    kill_switch := false, rules := [] }

/-- A fresh engine under `demoPolicy`. -/
def demoEngine : SafetyEngine := { policy := demoPolicy, approved_trades := [] }

/-- The same engine with the kill switch active. -/
def killEngine : SafetyEngine :=
  { policy := { demoPolicy with kill_switch := true }, approved_trades := [] }

/-- A proposed trade of value 600 for wallet W1. -/
def demoTrade : ProposedTrade := { wallet_address := "W1", value := 600 }

/-! Claim theorems. -/

/-- C10: for `OrderType` and `OrderStatus`, the serde/sqlx serialized text
form is the variant name fully lowercased with no separator, the `Display`
form is snake_case, and for every multi-word variant (StopLoss, TakeProfit,
TrailingStop, PartiallyFilled) the two differ and the Display string is not
accepted by deserialization, so display-then-parse does not round-trip
(while serialize-then-parse does). -/
theorem serde_lowercase_display_snake :
    (∀ v : OrderType, OrderType.from_serde v.serde_name = some v) ∧
    (∀ s : OrderStatus, OrderStatus.from_serde s.serde_name = some s) ∧
    (OrderType.serde_name .StopLoss = "stoploss" ∧
     OrderType.serde_name .TakeProfit = "takeprofit" ∧
     OrderType.serde_name .TrailingStop = "trailingstop" ∧
     OrderStatus.serde_name .PartiallyFilled = "partiallyfilled" ∧
     OrderType.display .StopLoss = "stop_loss" ∧
     OrderType.display .TakeProfit = "take_profit" ∧
     OrderType.display .TrailingStop = "trailing_stop" ∧
     OrderStatus.display .PartiallyFilled = "partially_filled" ∧
     OrderType.display .StopLoss ≠ OrderType.serde_name .StopLoss ∧
     OrderType.display .TakeProfit ≠ OrderType.serde_name .TakeProfit ∧
     OrderType.display .TrailingStop ≠ OrderType.serde_name .TrailingStop ∧
     OrderStatus.display .PartiallyFilled ≠
       OrderStatus.serde_name .PartiallyFilled ∧
     OrderType.from_serde (OrderType.display .StopLoss) = none ∧
     OrderType.from_serde (OrderType.display .TakeProfit) = none ∧
     OrderType.from_serde (OrderType.display .TrailingStop) = none ∧
     OrderStatus.from_serde (OrderStatus.display .PartiallyFilled) = none) :=
  ⟨fun v => by cases v <;> rfl, fun s => by cases s <;> rfl, by decide⟩

/-- C3: if the kill switch is active, `evaluate` denies every proposal with
exactly the single reason `KillSwitchActive`, regardless of the trade, the
wallet, the counters or any other parameter, and the engine state is
untouched (all other checks are short-circuited). -/
theorem kill_switch_short_circuit (e : SafetyEngine) (t : ProposedTrade)
    (now : ℕ) (h : e.policy.kill_switch = true) :
    evaluate e t now = (.Deny [.KillSwitchActive], e) := by
  simp [evaluate, h]

theorem kill_switch_short_circuit_witness :
    evaluate killEngine demoTrade 7 = (.Deny [.KillSwitchActive], killEngine) :=
  kill_switch_short_circuit killEngine demoTrade 7 rfl

/-- C8: `cancel`, `mark_expired` and `mark_failed` each succeed (moving the
order to Cancelled, Expired, Failed respectively) exactly when the current
status is Pending or PartiallyFilled, and fail with `InvalidTransition` for
every other status. -/
theorem terminal_marks_validate (o : Order) (reason : String) (now : ℕ) :
    ((o.status = .Pending ∨ o.status = .PartiallyFilled) →
      cancel o now = .ok { o with status := .Cancelled, updated_at := now } ∧
      mark_expired o now =
        .ok { o with status := .Expired, updated_at := now } ∧
      mark_failed o reason now =
        .ok { o with status := .Failed, error_message := some reason,
                     updated_at := now }) ∧
    (o.status ≠ .Pending → o.status ≠ .PartiallyFilled →
      cancel o now = .error .InvalidTransition ∧
      mark_expired o now = .error .InvalidTransition ∧
      mark_failed o reason now = .error .InvalidTransition) := by
  constructor
  · intro h
    simp [cancel, mark_expired, mark_failed, h]
  · intro h1 h2
    simp [cancel, mark_expired, mark_failed, h1, h2]

theorem terminal_marks_validate_witness :
    cancel demoOrder 2 =
      .ok { demoOrder with status := .Cancelled, updated_at := 2 } ∧
    cancel filledOrder 2 = .error .InvalidTransition :=
  ⟨((terminal_marks_validate demoOrder "r" 2).1 (Or.inl rfl)).1,
   ((terminal_marks_validate filledOrder "r" 2).2 (by decide) (by decide)).1⟩

/-- C4: `apply_fill` increases the filled amount and recomputes the status
(Filled exactly on completion, PartiallyFilled otherwise) only when the
delta is positive and does not overshoot the requested amount; overshoot
fails with `OverFill` and leaves the order frozen (no field changed, not
silently capped); a non-positive delta fails with `InvalidRequest`; a
terminal order fails with `InvalidTransition`. -/
theorem apply_fill_spec (o : Order) (delta price : ℚ) (sig : String) (now : ℕ) :
    (o.status.isTerminal = true →
       apply_fill o delta price sig now = .error .InvalidTransition ∧
       step o (.fill delta price sig now) = o) ∧
    (o.status.isTerminal = false → 0 < delta →
       o.filled_amount + delta ≤ o.amount →
       apply_fill o delta price sig now = .ok { o with
         filled_amount := o.filled_amount + delta,
         status := if o.filled_amount + delta = o.amount then .Filled
                   else .PartiallyFilled,
         tx_signature := some sig, updated_at := now }) ∧
    (o.status.isTerminal = false → 0 < delta →
       o.amount < o.filled_amount + delta →
       apply_fill o delta price sig now = .error .OverFill ∧
       step o (.fill delta price sig now) = o) ∧
    (o.status.isTerminal = false → delta ≤ 0 →
       apply_fill o delta price sig now = .error .InvalidRequest ∧
       step o (.fill delta price sig now) = o) := by
  refine ⟨?_, ?_, ?_, ?_⟩
  · intro h
    simp [apply_fill, step, h]
  · intro h hd hle
    simp [apply_fill, apply_fill.newFilled, h, not_le.mpr hd, not_lt.mpr hle]
  · intro h hd hlt
    simp [apply_fill, apply_fill.newFilled, step, h, not_le.mpr hd, hlt]
  · intro h hd
    simp [apply_fill, apply_fill.newFilled, step, h, hd]

theorem apply_fill_spec_witness :
    apply_fill filledOrder 1 100 "sig" 2 = .error .InvalidTransition ∧
    apply_fill demoOrder 30 100 "sig" 2 = .error .OverFill ∧
    apply_fill demoOrder 0 100 "sig" 2 = .error .InvalidRequest :=
  ⟨((apply_fill_spec filledOrder 1 100 "sig" 2).1 (by decide)).1,
   ((apply_fill_spec demoOrder 30 100 "sig" 2).2.2.1 (by decide) (by decide)
      (by norm_num [demoOrder])).1,
   ((apply_fill_spec demoOrder 0 100 "sig" 2).2.2.2 (by decide) (by decide)).1⟩

/-- A trailing percent strictly between 0 and 100 is present, as a
proposition. -/
lemma trailingOk_iff (x : Option ℚ) :
    trailingOk x = true ↔ ∃ p, x = some p ∧ 0 < p ∧ p < 100 := by
  cases x <;> simp [trailingOk]

/-- C7: `create` returns a new Pending order with the requested id and
timestamps exactly when the request is well-formed (non-empty pair
identifiers, positive amount, a trigger price for Limit/StopLoss/TakeProfit,
a trailing percent strictly between 0 and 100 for TrailingStop), and fails
with `InvalidRequest` (creating no order) whenever any validation fails. -/
theorem create_validates (req : CreateOrderRequest) (id : String) (now : ℕ) :
    ((∃ o, create req id now = .ok o) ↔
       (req.input_mint ≠ "" ∧ req.output_mint ≠ "" ∧ 0 < req.amount ∧
        (req.order_type = .Limit → req.limit_price ≠ none) ∧
        ((req.order_type = .StopLoss ∨ req.order_type = .TakeProfit) →
           req.stop_price ≠ none) ∧
        (req.order_type = .TrailingStop →
           ∃ p, req.trailing_percent = some p ∧ 0 < p ∧ p < 100))) ∧
    (∀ o, create req id now = .ok o →
       o.status = .Pending ∧ o.id = id ∧ o.created_at = now ∧
       o.updated_at = now ∧ o.filled_amount = 0 ∧ o.amount = req.amount) ∧
    ((∃ o, create req id now = .ok o) ∨
       create req id now = .error .InvalidRequest) := by
  unfold create
  split_ifs with h1 h2 h3 h4 h5 h6
  case pos =>
    refine ⟨⟨?_, ?_⟩, ?_, Or.inr rfl⟩
    · rintro ⟨o, ho⟩
      exact absurd ho (by simp)
    · intro hwf
      exact absurd h1 hwf.1
    · intro o ho
      exact absurd ho (by simp)
  case pos =>
    refine ⟨⟨?_, ?_⟩, ?_, Or.inr rfl⟩
    · rintro ⟨o, ho⟩
      exact absurd ho (by simp)
    · intro hwf
      exact absurd h2 hwf.2.1
    · intro o ho
      exact absurd ho (by simp)
  case pos =>
    refine ⟨⟨?_, ?_⟩, ?_, Or.inr rfl⟩
    · rintro ⟨o, ho⟩
      exact absurd ho (by simp)
    · intro hwf
      exact absurd hwf.2.2.1 (not_lt.mpr h3)
    · intro o ho
      exact absurd ho (by simp)
  case pos =>
    refine ⟨⟨?_, ?_⟩, ?_, Or.inr rfl⟩
    · rintro ⟨o, ho⟩
      exact absurd ho (by simp)
    · intro hwf
      exact absurd h4.2 (hwf.2.2.2.1 h4.1)
    · intro o ho
      exact absurd ho (by simp)
  case pos =>
    refine ⟨⟨?_, ?_⟩, ?_, Or.inr rfl⟩
    · rintro ⟨o, ho⟩
      exact absurd ho (by simp)
    · intro hwf
      exact absurd h5.2 (hwf.2.2.2.2.1 h5.1)
    · intro o ho
      exact absurd ho (by simp)
  case pos =>
    refine ⟨⟨?_, ?_⟩, ?_, Or.inr rfl⟩
    · rintro ⟨o, ho⟩
      exact absurd ho (by simp)
    · intro hwf
      exact absurd ((trailingOk_iff _).mpr (hwf.2.2.2.2.2 h6.1))
        (by simp [h6.2])
    · intro o ho
      exact absurd ho (by simp)
  case neg =>
    refine ⟨⟨fun _ => ⟨h1, h2, not_le.mp h3, ?_, ?_, ?_⟩, fun _ => ⟨_, rfl⟩⟩,
      ?_, Or.inl ⟨_, rfl⟩⟩
    · exact fun hL hnone => h4 ⟨hL, hnone⟩
    · exact fun hST hnone => h5 ⟨hST, hnone⟩
    · intro hT
      refine (trailingOk_iff _).mp ?_
      cases htr : trailingOk req.trailing_percent
      · exact absurd ⟨hT, htr⟩ h6
      · rfl
    · intro o ho
      injection ho with h
      subst h
      exact ⟨rfl, rfl, rfl, rfl, rfl, rfl⟩

/-- A well-formed Market-order request. -/
def demoRequest : CreateOrderRequest :=
  { order_type := .Market, side := .Buy, input_mint := "SOL",
    output_mint := "USDC", input_symbol := "SOL", output_symbol := "USDC",
    amount := 10, limit_price := none, stop_price := none,
    trailing_percent := none, linked_order_id := none, slippage_bps := 50,
    priority_fee_micro_lamports := 0, wallet_address := "W1" }

/-- A malformed request (amount 0). -/
def badRequest : CreateOrderRequest := { demoRequest with amount := 0 }

theorem create_validates_witness :
    (∃ o, create demoRequest "ord-1" 1 = .ok o) ∧
    create badRequest "ord-9" 1 = .error .InvalidRequest := by
  constructor
  · exact (create_validates demoRequest "ord-1" 1).1.mpr
      (by simp [demoRequest])
  · refine ((create_validates badRequest "ord-9" 1).2.2).resolve_left ?_
    intro hex
    have hwf := (create_validates badRequest "ord-9" 1).1.mp hex
    have : (0:ℚ) < 0 := by simpa [badRequest, demoRequest] using hwf.2.2.1
    exact absurd this (by norm_num)

/-- A terminal status is not Pending / PartiallyFilled. -/
lemma not_open_of_terminal {s : OrderStatus} (h : s.isTerminal = true) :
    ¬(s = .Pending ∨ s = .PartiallyFilled) := by
  cases s <;> simp_all [OrderStatus.isTerminal]

/-- `apply_fill` preserves the Order invariant. -/
lemma inv_apply_fill {o o' : Order} {delta price : ℚ} {sig : String} {now : ℕ}
    (h : Inv o) (hok : apply_fill o delta price sig now = .ok o') : Inv o' := by
  unfold apply_fill at hok
  split_ifs at hok with h1 h2 h3 h4
  all_goals cases hok
  all_goals
    refine ⟨?_, by simp [h4]⟩
    first
    | exact h4.le
    | exact not_lt.mp h3

/-- Marking an unfilled open order with a non-Filled terminal status
preserves the Order invariant. -/
lemma inv_mark {o : Order} (h : Inv o) (hopen : o.status ≠ .Filled)
    (s : OrderStatus) (hs : s ≠ .Filled) (em : Option String) (now : ℕ) :
    Inv { o with status := s, error_message := em, updated_at := now } := by
  refine ⟨h.1, ?_⟩
  constructor
  · intro hx
    exact absurd hx hs
  · intro hx
    exact absurd (h.2.mpr hx) hopen

/-- `update_trailing_watermark` preserves the Order invariant. -/
lemma inv_trail {o o' : Order} {price : ℚ}
    (h : Inv o) (hok : update_trailing_watermark o price = .ok o') : Inv o' := by
  unfold update_trailing_watermark at hok
  split_ifs at hok with h1
  all_goals
    first
    | cases hok
    | (cases htp : o.trailing_percent with
       | none => rw [htp] at hok; cases hok
       | some tp =>
         rw [htp] at hok
         cases hside : o.side <;> rw [hside] at hok <;>
           (cases hok; exact ⟨h.1, h.2⟩))

/-- `update_trailing_watermark` never changes the status. -/
lemma trail_status {o o' : Order} {price : ℚ}
    (hok : update_trailing_watermark o price = .ok o') :
    o'.status = o.status := by
  unfold update_trailing_watermark at hok
  split_ifs at hok with h1
  all_goals
    first
    | cases hok
    | (cases htp : o.trailing_percent with
       | none => rw [htp] at hok; cases hok
       | some tp =>
         rw [htp] at hok
         cases hside : o.side <;> rw [hside] at hok <;> (cases hok; rfl))

/-- Every single Order Store operation preserves the Order invariant. -/
lemma inv_step (o : Order) (op : Op) (h : Inv o) : Inv (step o op) := by
  cases op with
  | fill delta price sig now =>
    cases hh : apply_fill o delta price sig now with
    | ok o' => simpa [step, hh] using inv_apply_fill h hh
    | error e => simpa [step, hh] using h
  | cancelOp now =>
    cases hh : cancel o now with
    | ok o' =>
      have hi : Inv o' := by
        unfold cancel at hh
        split_ifs at hh with h1
        cases hh
        have hne : o.status ≠ .Filled := by
          rcases h1 with h1 | h1 <;> simp [h1]
        simpa using inv_mark h hne .Cancelled (by simp) o.error_message now
      simpa [step, hh] using hi
    | error e => simpa [step, hh] using h
  | expireOp now =>
    cases hh : mark_expired o now with
    | ok o' =>
      have hi : Inv o' := by
        unfold mark_expired at hh
        split_ifs at hh with h1
        cases hh
        have hne : o.status ≠ .Filled := by
          rcases h1 with h1 | h1 <;> simp [h1]
        simpa using inv_mark h hne .Expired (by simp) o.error_message now
      simpa [step, hh] using hi
    | error e => simpa [step, hh] using h
  | failOp reason now =>
    cases hh : mark_failed o reason now with
    | ok o' =>
      have hi : Inv o' := by
        unfold mark_failed at hh
        split_ifs at hh with h1
        cases hh
        have hne : o.status ≠ .Filled := by
          rcases h1 with h1 | h1 <;> simp [h1]
        simpa using inv_mark h hne .Failed (by simp) (some reason) now
      simpa [step, hh] using hi
    | error e => simpa [step, hh] using h
  | trailOp price =>
    cases hh : update_trailing_watermark o price with
    | ok o' => simpa [step, hh] using inv_trail h hh
    | error e => simpa [step, hh] using h

/-- No operation changes the status of an order already in a terminal
status. -/
lemma step_status_terminal (o : Order) (op : Op)
    (h : o.status.isTerminal = true) : (step o op).status = o.status := by
  cases op with
  | fill delta price sig now =>
    have hf : apply_fill o delta price sig now = .error .InvalidTransition := by
      unfold apply_fill
      simp [h]
    simp [step, hf]
  | cancelOp now =>
    have hf : cancel o now = .error .InvalidTransition := by
      unfold cancel
      simp [not_open_of_terminal h]
    simp [step, hf]
  | expireOp now =>
    have hf : mark_expired o now = .error .InvalidTransition := by
      unfold mark_expired
      simp [not_open_of_terminal h]
    simp [step, hf]
  | failOp reason now =>
    have hf : mark_failed o reason now = .error .InvalidTransition := by
      unfold mark_failed
      simp [not_open_of_terminal h]
    simp [step, hf]
  | trailOp price =>
    cases hh : update_trailing_watermark o price with
    | ok o' => simpa [step, hh] using trail_status hh
    | error e => simp [step, hh]

/-- A freshly created order satisfies the Order invariant. -/
lemma inv_create {req : CreateOrderRequest} {id : String} {now : ℕ} {o : Order}
    (h : create req id now = .ok o) : Inv o := by
  unfold create at h
  split_ifs at h with h1 h2 h3 h4 h5 h6
  all_goals cases h
  refine ⟨le_of_lt (not_le.mp h3), ?_⟩
  constructor
  · intro hx
    exact absurd hx (by simp)
  · intro hx
    exact absurd hx (ne_of_lt (not_le.mp h3))

/-- C1: created orders satisfy the invariant `filled_amount ≤ amount` and
`status = Filled ↔ filled_amount = amount`; every sequence of Order Store
operations (apply_fill, cancel, mark_expired, mark_failed,
update_trailing_watermark) preserves it; and once a status is terminal
(Filled, Cancelled, Expired, Failed) no sequence of operations changes the
status. -/
theorem order_invariant_and_terminal_stickiness :
    (∀ (req : CreateOrderRequest) (id : String) (now : ℕ) (o : Order),
       create req id now = .ok o → Inv o) ∧
    (∀ (o : Order) (ops : List Op), Inv o → Inv (applyOps o ops)) ∧
    (∀ (o : Order) (ops : List Op), o.status.isTerminal = true →
       (applyOps o ops).status = o.status) := by
  refine ⟨fun req id now o h => inv_create h, ?_, ?_⟩
  · intro o ops
    induction ops generalizing o with
    | nil => exact fun h => h
    | cons op rest ih =>
      intro h
      exact ih _ (inv_step o op h)
  · intro o ops
    induction ops generalizing o with
    | nil => exact fun _ => rfl
    | cons op rest ih =>
      intro h
      have h1 := step_status_terminal o op h
      have h2 : (step o op).status.isTerminal = true := by rw [h1]; exact h
      calc (applyOps (step o op) rest).status = (step o op).status := ih _ h2
        _ = o.status := h1

theorem order_invariant_and_terminal_stickiness_witness :
    Inv (applyOps demoOrder [Op.fill 4 101 "s1" 2, Op.fill 6 101 "s2" 3]) ∧
    (applyOps filledOrder [Op.cancelOp 4, Op.failOp "oops" 5]).status =
      filledOrder.status :=
  ⟨order_invariant_and_terminal_stickiness.2.1 demoOrder
     [Op.fill 4 101 "s1" 2, Op.fill 6 101 "s2" 3] (by decide),
   order_invariant_and_terminal_stickiness.2.2 filledOrder
     [Op.cancelOp 4, Op.failOp "oops" 5] (by decide)⟩

/-- The trigger comparator, characterized case by case. -/
lemma fires_iff (o : Order) (p : ℚ) :
    fires o p = true ↔
      ((o.order_type = .Limit ∧ o.side = .Buy ∧
          ∃ lp, o.limit_price = some lp ∧ p ≤ lp) ∨
       (o.order_type = .Limit ∧ o.side = .Sell ∧
          ∃ lp, o.limit_price = some lp ∧ lp ≤ p) ∨
       (o.order_type = .StopLoss ∧ o.side = .Sell ∧
          ∃ sp, o.stop_price = some sp ∧ p ≤ sp) ∨
       (o.order_type = .StopLoss ∧ o.side = .Buy ∧
          ∃ sp, o.stop_price = some sp ∧ sp ≤ p) ∨
       (o.order_type = .TakeProfit ∧ o.side = .Sell ∧
          ∃ sp, o.stop_price = some sp ∧ sp ≤ p) ∨
       (o.order_type = .TakeProfit ∧ o.side = .Buy ∧
          ∃ sp, o.stop_price = some sp ∧ p ≤ sp) ∨
       (o.order_type = .TrailingStop ∧ o.side = .Sell ∧
          ∃ sp, o.stop_price = some sp ∧ p ≤ sp) ∨
       (o.order_type = .TrailingStop ∧ o.side = .Buy ∧
          ∃ sp, o.stop_price = some sp ∧ sp ≤ p)) := by
  cases ht : o.order_type <;> cases hs : o.side <;>
    cases hlp : o.limit_price <;> cases hsp : o.stop_price <;>
      simp [fires, ht, hs, hlp, hsp]

/-- Membership in an evaluation round's output, characterized. -/
lemma evalTick_mem (orders : List Order) (t : Tick) (o : Order) :
    o ∈ (evalTick orders t).2 ↔
      (o ∈ orders.map (tickUpdate t) ∧
       (o.status = .Pending ∨ o.status = .PartiallyFilled) ∧
       o.input_mint = t.input_mint ∧ o.output_mint = t.output_mint ∧
       o.triggered_at = none ∧ fires o t.price = true) := by
  simp only [evalTick, List.mem_insertionSort, List.mem_filter, eligible,
    openStatus, pairMatch, Bool.and_eq_true, Bool.or_eq_true,
    decide_eq_true_eq, Option.isNone_iff_eq_none]
  tauto

/-- An evaluation round's output is ordered by ascending creation time. -/
lemma evalTick_sorted (orders : List Order) (t : Tick) :
    (evalTick orders t).2.Pairwise
      (fun a b => a.created_at ≤ b.created_at) :=
  List.sorted_insertionSort createdLE _

/-- C2: an evaluation round fires exactly the open, not-yet-triggered
conditional orders for the tick's pair whose type-specific comparator
fires (Limit Buy: price ≤ limit; Limit Sell: price ≥ limit; StopLoss Sell:
price ≤ stop; StopLoss Buy: price ≥ stop; TakeProfit Sell: price ≥ target;
TakeProfit Buy: price ≤ target; TrailingStop: the StopLoss comparator
against the recomputed effective stop; Market never), lists them in
ascending creation-time order, and on the spec scenario — a Limit Sell at
trigger price 100 fed ticks [98, 99, 101] — it triggers only on the 101
tick, producing exactly one Execution Coordinator invocation. -/
theorem trigger_evaluator_spec :
    (∀ (o : Order) (p : ℚ), fires o p = true ↔
      ((o.order_type = .Limit ∧ o.side = .Buy ∧
          ∃ lp, o.limit_price = some lp ∧ p ≤ lp) ∨
       (o.order_type = .Limit ∧ o.side = .Sell ∧
          ∃ lp, o.limit_price = some lp ∧ lp ≤ p) ∨
       (o.order_type = .StopLoss ∧ o.side = .Sell ∧
          ∃ sp, o.stop_price = some sp ∧ p ≤ sp) ∨
       (o.order_type = .StopLoss ∧ o.side = .Buy ∧
          ∃ sp, o.stop_price = some sp ∧ sp ≤ p) ∨
       (o.order_type = .TakeProfit ∧ o.side = .Sell ∧
          ∃ sp, o.stop_price = some sp ∧ sp ≤ p) ∨
       (o.order_type = .TakeProfit ∧ o.side = .Buy ∧
          ∃ sp, o.stop_price = some sp ∧ p ≤ sp) ∨
       (o.order_type = .TrailingStop ∧ o.side = .Sell ∧
          ∃ sp, o.stop_price = some sp ∧ p ≤ sp) ∨
       (o.order_type = .TrailingStop ∧ o.side = .Buy ∧
          ∃ sp, o.stop_price = some sp ∧ sp ≤ p))) ∧
    (∀ (orders : List Order) (t : Tick) (o : Order),
       o ∈ (evalTick orders t).2 ↔
         (o ∈ orders.map (tickUpdate t) ∧
          (o.status = .Pending ∨ o.status = .PartiallyFilled) ∧
          o.input_mint = t.input_mint ∧ o.output_mint = t.output_mint ∧
          o.triggered_at = none ∧ fires o t.price = true)) ∧
    (∀ (orders : List Order) (t : Tick),
       (evalTick orders t).2.Pairwise
         (fun a b => a.created_at ≤ b.created_at)) ∧
    ((processTicks [demoOrder] [tick 98 10, tick 99 11, tick 101 12]).2 =
       [("ord-1", (101 : ℚ), 12)] ∧
     evalTickOutput [demoOrder] (tick 98 10) = [] ∧
     evalTickOutput [demoOrder] (tick 99 11) = []) :=
  ⟨fires_iff, evalTick_mem, evalTick_sorted, by decide, by decide, by decide⟩

/-- The watermark update is idempotent on the same tick. -/
lemma tickUpdate_idem (t : Tick) (o : Order) :
    tickUpdate t (tickUpdate t o) = tickUpdate t o := by
  by_cases hc : (pairMatch o t && decide (o.order_type = .TrailingStop)) = true
  · rw [Bool.and_eq_true, decide_eq_true_eq] at hc
    obtain ⟨hpm, hty⟩ := hc
    have hin : o.input_mint = t.input_mint ∧ o.output_mint = t.output_mint := by
      simpa [pairMatch] using hpm
    cases htp : o.trailing_percent with
    | none =>
      simp [tickUpdate, update_trailing_watermark, pairMatch, hin.1, hin.2,
        hty, htp]
    | some tp =>
      cases hside : o.side <;>
        simp [tickUpdate, update_trailing_watermark, pairMatch, hin.1, hin.2,
          hty, htp, hside, min_assoc, min_self, max_assoc, max_self]
  · have hc' : (pairMatch o t && decide (o.order_type = .TrailingStop)) = false := by
      simpa using hc
    simp [tickUpdate, hc']

/-- The watermark update commutes with setting the triggered marker. -/
lemma tickUpdate_triggered (t : Tick) (o : Order) (ts : ℕ) :
    tickUpdate t { o with triggered_at := some ts } =
      { tickUpdate t o with triggered_at := some ts } := by
  by_cases hc : (pairMatch o t && decide (o.order_type = .TrailingStop)) = true
  · rw [Bool.and_eq_true, decide_eq_true_eq] at hc
    obtain ⟨hpm, hty⟩ := hc
    have hin : o.input_mint = t.input_mint ∧ o.output_mint = t.output_mint := by
      simpa [pairMatch] using hpm
    cases htp : o.trailing_percent with
    | none =>
      simp [tickUpdate, update_trailing_watermark, pairMatch, hin.1, hin.2,
        hty, htp]
    | some tp =>
      cases hside : o.side <;>
        simp [tickUpdate, update_trailing_watermark, pairMatch, hin.1, hin.2,
          hty, htp, hside]
  · have hc' : (pairMatch o t && decide (o.order_type = .TrailingStop)) = false := by
      simpa using hc
    simp only [tickUpdate] at hc' ⊢
    have hc2 : (pairMatch { o with triggered_at := some ts } t &&
        decide (Order.order_type { o with triggered_at := some ts } =
          .TrailingStop)) = false := by
      simpa [pairMatch] using hc'
    simp [hc', hc2]

/-- After a round has processed a tick, no order remains eligible for the
same tick. -/
lemma eligible_second_round (t : Tick) (o : Order) :
    eligible t (tickUpdate t (markTriggered t (tickUpdate t o))) = false := by
  by_cases he : eligible t (tickUpdate t o) = true
  · rw [markTriggered, if_pos he, tickUpdate_triggered, tickUpdate_idem]
    simp [eligible]
  · have he' : eligible t (tickUpdate t o) = false := by simpa using he
    rw [markTriggered, if_neg (by simp [he']), tickUpdate_idem]
    exact he'

/-- C6: trigger evaluation is idempotent per order — re-delivering the
same price tick after a round has marked its fired orders triggered (the
one-shot marker is set with the eligibility decision) fires nothing, so no
order is included in the eligible output again and no second execution is
produced. -/
theorem trigger_idempotent (orders : List Order) (t : Tick) :
    (evalTick (evalTick orders t).1 t).2 = [] := by
  have hfilter :
      (((orders.map (tickUpdate t)).map (markTriggered t)).map
        (tickUpdate t)).filter (eligible t) = [] := by
    refine List.filter_eq_nil_iff.mpr ?_
    intro x hx
    simp only [List.mem_map] at hx
    obtain ⟨y, ⟨z, ⟨o0, ho0, rfl⟩, rfl⟩, rfl⟩ := hx
    simp [eligible_second_round]
  simp only [evalTick]
  rw [hfilter]
  rfl

/-- C5 (amended): `update_trailing_watermark` moves the sell-side high
watermark (buy-side low watermark) monotonically — never below a previous
high (never above a previous low) and never below (above) the tick — and
sets the effective stop to watermark × (1 − trailing%/100) for Sell,
watermark × (1 + trailing%/100) for Buy. In the spec scenario (TrailingStop
Sell, trailing 5%, starting watermark 200) ticks [210, 205] move the
watermark to 210 and the effective stop to 199.5 without triggering; a
subsequent tick of 199.4 triggers. (At 199.5 exactly the order also
triggers, since the StopLoss comparator is inclusive — see the
counterexample to the original claim.) -/
theorem trailing_watermark_monotonic :
    (∀ (o : Order) (price tp : ℚ) (o' : Order),
       o.side = .Sell → o.trailing_percent = some tp →
       update_trailing_watermark o price = .ok o' →
       ∃ w, o'.highest_price = some w ∧ price ≤ w ∧
         (∀ h, o.highest_price = some h → h ≤ w) ∧
         o'.stop_price = some (w * (1 - tp / 100))) ∧
    (∀ (o : Order) (price tp : ℚ) (o' : Order),
       o.side = .Buy → o.trailing_percent = some tp →
       update_trailing_watermark o price = .ok o' →
       ∃ w, o'.lowest_price = some w ∧ w ≤ price ∧
         (∀ l, o.lowest_price = some l → w ≤ l) ∧
         o'.stop_price = some (w * (1 + tp / 100))) ∧
    ((processTicks [trailOrder] [tick 210 10, tick 205 11]).1.map
        Order.highest_price = [some 210] ∧
     (processTicks [trailOrder] [tick 210 10, tick 205 11]).1.map
        Order.stop_price = [some (199.5 : ℚ)] ∧
     (processTicks [trailOrder] [tick 210 10, tick 205 11]).2 = [] ∧
     (processTicks [trailOrder]
        [tick 210 10, tick 205 11, tick (199.4 : ℚ) 12]).2 =
       [("ord-2", (199.4 : ℚ), 12)]) := by
  refine ⟨?_, ?_, ?_, ?_, ?_, ?_⟩
  · intro o price tp o' hs htp hok
    unfold update_trailing_watermark at hok
    split_ifs at hok with h1
    rw [htp, hs] at hok
    cases hok
    refine ⟨max (o.highest_price.getD price) price, rfl, le_max_right _ _,
      ?_, rfl⟩
    intro h hh
    rw [hh]
    exact le_max_of_le_left (by simp)
  · intro o price tp o' hs htp hok
    unfold update_trailing_watermark at hok
    split_ifs at hok with h1
    rw [htp, hs] at hok
    cases hok
    refine ⟨min (o.lowest_price.getD price) price, rfl, min_le_right _ _,
      ?_, rfl⟩
    intro l hl
    rw [hl]
    exact min_le_of_left_le (by simp)
  · norm_num [processTicks, evalTick, evalTickOutput, tickUpdate,
      update_trailing_watermark, pairMatch, trailOrder, demoOrder, tick,
      eligible, openStatus, fires, markTriggered]
  · norm_num [processTicks, evalTick, evalTickOutput, tickUpdate,
      update_trailing_watermark, pairMatch, trailOrder, demoOrder, tick,
      eligible, openStatus, fires, markTriggered]
  · norm_num [processTicks, evalTick, evalTickOutput, tickUpdate,
      update_trailing_watermark, pairMatch, trailOrder, demoOrder, tick,
      eligible, openStatus, fires, markTriggered]
  · norm_num [processTicks, evalTick, evalTickOutput, tickUpdate,
      update_trailing_watermark, pairMatch, trailOrder, demoOrder, tick,
      eligible, openStatus, fires, markTriggered, createdLE]

/-- C5 counterexample to the original claim: fed ticks [210, 205, 199.5],
the TrailingStop Sell with trailing 5% and starting watermark 200 does
trigger on the 199.5 tick (tick price ≤ effective stop 199.5), where the
claim asserts no trigger on those ticks. -/
theorem trailing_boundary_counterexample :
    (processTicks [trailOrder]
       [tick 210 10, tick 205 11, tick (199.5 : ℚ) 12]).2 =
      [("ord-2", (199.5 : ℚ), 12)] := by
  norm_num [processTicks, evalTick, evalTickOutput, tickUpdate,
    update_trailing_watermark, pairMatch, trailOrder, demoOrder, tick,
    eligible, openStatus, fires, markTriggered, createdLE]

theorem trailing_watermark_monotonic_witness :
    ∃ o', update_trailing_watermark trailOrder 210 = .ok o' ∧
      ∃ w, o'.highest_price = some w ∧ (210 : ℚ) ≤ w ∧
        (∀ h, trailOrder.highest_price = some h → h ≤ w) ∧
        o'.stop_price = some (w * (1 - 5 / 100)) := by
  have hok : update_trailing_watermark trailOrder 210 =
      .ok { trailOrder with
              highest_price := some (210 : ℚ)
              stop_price := some ((210 : ℚ) * (1 - 5 / 100)) } := by
    norm_num [update_trailing_watermark, trailOrder, demoOrder]
  exact ⟨_, hok, trailing_watermark_monotonic.1 trailOrder 210 5 _ rfl rfl hok⟩

/-- `evaluate` approves and records the trade when every check passes. -/
lemma evaluate_approve (e : SafetyEngine) (t : ProposedTrade) (now : ℕ)
    (hk : e.policy.kill_switch = false)
    (hcd : ∀ last, lastTradeTime e t.wallet_address = some last →
       last + e.policy.cooldown_seconds ≤ now)
    (hv : t.value ≤ e.policy.max_trade_value)
    (hrule : ∀ r ∈ e.policy.rules, r.passes t.value = true)
    (hd : dailySum e t.wallet_address now + t.value ≤ e.policy.daily_limit) :
    evaluate e t now =
      (.Approve, { e with approved_trades :=
         (t.wallet_address, t.value, now) :: e.approved_trades }) := by
  have hfilter : e.policy.rules.filter (fun r => !(r.passes t.value)) = [] :=
    List.filter_eq_nil_iff.mpr (fun r hr => by simp [hrule r hr])
  cases hlt : lastTradeTime e t.wallet_address with
  | none =>
    simp [evaluate, hk, hlt, hfilter, not_lt.mpr hv, not_lt.mpr hd]
  | some last =>
    simp [evaluate, hk, hlt, hfilter, not_lt.mpr (hcd last hlt),
      not_lt.mpr hv, not_lt.mpr hd]

/-- `evaluate` denies with (at least) `ExceedsDailyLimit` when the rolling
daily sum plus the trade's value exceeds the daily ceiling. -/
lemma evaluate_deny_of_daily (e : SafetyEngine) (t : ProposedTrade) (now : ℕ)
    (hk : e.policy.kill_switch = false)
    (hd : e.policy.daily_limit < dailySum e t.wallet_address now + t.value) :
    ∃ rs, (evaluate e t now).1 = .Deny rs ∧ Reason.ExceedsDailyLimit ∈ rs := by
  simp only [evaluate, hk, Bool.false_eq_true, if_false, if_pos hd]
  set rs0 := (match lastTradeTime e t.wallet_address with
    | some last =>
      if now < last + e.policy.cooldown_seconds then
        [Reason.CooldownActive (last + e.policy.cooldown_seconds - now)]
      else []
    | none => []) ++
    (if e.policy.max_trade_value < t.value then
       [Reason.ExceedsTradeLimit] else []) ++
    [Reason.ExceedsDailyLimit] ++
    ((e.policy.rules.filter fun r => !(r.passes t.value)).map fun r =>
      Reason.ThresholdViolation r.name) with hrs0
  have hmem : Reason.ExceedsDailyLimit ∈ rs0 := by
    rw [hrs0]
    simp
  have hne : rs0.isEmpty = false := by
    rcases rs0 with _ | ⟨a, l⟩
    · cases hmem
    · rfl
  rw [hne]
  exact ⟨rs0, rfl, hmem⟩

/-- Recording an approved trade adds its value to the wallet's rolling
daily sum. -/
lemma dailySum_cons_self (e : SafetyEngine) (w : String) (v : ℚ) (now : ℕ) :
    dailySum { e with approved_trades := (w, v, now) :: e.approved_trades }
        w now
      = v + dailySum e w now := by
  simp [dailySum, List.filter_cons]

/-- C9: two `evaluate` calls for the same wallet (an Approve records the
trade against the counters atomically, so concurrent calls serialize in
some order): when each trade alone passes every check — in particular each
alone fits under the remaining daily ceiling — but their sum exceeds the
daily ceiling, the first call returns Approve and the second returns Deny
with reason `ExceedsDailyLimit`; two Approves never occur (both orders of
the same two trades are covered by instantiating `t1`, `t2` both ways). -/
theorem daily_limit_single_approve
    (e : SafetyEngine) (t1 t2 : ProposedTrade) (now : ℕ)
    (hw : t2.wallet_address = t1.wallet_address)
    (hk : e.policy.kill_switch = false)
    (hcd : ∀ last, lastTradeTime e t1.wallet_address = some last →
       last + e.policy.cooldown_seconds ≤ now)
    (hv1 : t1.value ≤ e.policy.max_trade_value)
    (hv2 : t2.value ≤ e.policy.max_trade_value)
    (hrule : ∀ r ∈ e.policy.rules,
       r.passes t1.value = true ∧ r.passes t2.value = true)
    (hd1 : dailySum e t1.wallet_address now + t1.value ≤ e.policy.daily_limit)
    (hd2 : dailySum e t1.wallet_address now + t2.value ≤ e.policy.daily_limit)
    (hsum : e.policy.daily_limit <
       dailySum e t1.wallet_address now + t1.value + t2.value) :
    (evaluate e t1 now).1 = .Approve ∧
    (∃ rs, (evaluate (evaluate e t1 now).2 t2 now).1 = .Deny rs ∧
       Reason.ExceedsDailyLimit ∈ rs) := by
  have h1 := evaluate_approve e t1 now hk hcd hv1
    (fun r hr => (hrule r hr).1) hd1
  rw [h1]
  refine ⟨rfl, ?_⟩
  refine evaluate_deny_of_daily _ t2 now hk ?_
  rw [hw, dailySum_cons_self]
  linarith

theorem daily_limit_single_approve_witness :
    (evaluate demoEngine demoTrade 0).1 = .Approve ∧
    (∃ rs, (evaluate (evaluate demoEngine demoTrade 0).2
        { wallet_address := "W1", value := 600 } 0).1 = .Deny rs ∧
      Reason.ExceedsDailyLimit ∈ rs) :=
  daily_limit_single_approve demoEngine demoTrade
    { wallet_address := "W1", value := 600 } 0 rfl rfl
    (fun last h => by simp [lastTradeTime, demoEngine] at h)
    (by decide) (by decide)
    (by simp [demoEngine, demoPolicy])
    (by norm_num [dailySum, demoEngine, demoPolicy, demoTrade])
    (by norm_num [dailySum, demoEngine, demoPolicy, demoTrade])
    (by norm_num [dailySum, demoEngine, demoPolicy, demoTrade])

end EclipseMarket
